import Mathlib

/-!
Shallow embedding of the seattle-food-truck client library, following the
concurrent-fetch variant in `seattle_food_truck/__init__.py` (the variant the
specification declares canonical).

Modelling conventions:

* The geometry (`haversine_distance` and its intermediate value) is embedded
  over `ℝ` with exact `Real.sin`, `Real.cos`, `Real.arcsin`, `Real.sqrt`;
  Python's `math.radians x` is `x * π / 180`.
* Client-level coordinates and distance values are embedded over `ℚ` (every
  Python float value is a rational number).  The ranking and error-handling
  operations take the distance function as a parameter standing for the float
  evaluation of `haversine_distance`; their list-structure and error
  properties hold for every such function.
* Network endpoints are embedded as pure page-indexed functions, the process
  clock date and the timestamp parser as parameters, and raised `ValueError`s
  as `Except` error values, one distinguishable value per raise site
  (`InvalidQuery`, `AddressNotFound`, `EmptyRegistry` in the spec's naming).
* `paginate` issues pages 2.. with `requests_futures` and appends results
  with `as_completed`, whose completion order is nondeterministic; the
  embedding appends in submission order.  Python's `sorted` is a stable sort
  and is embedded as `List.insertionSort`, which is stable.
* The memoizing descriptor (`LazyProperty` / the repository's own
  `lazyproperty` in `_client.py`) computes the wrapped function on first
  attribute access and stores the value in the instance dictionary, which
  shadows the descriptor afterwards; this is embedded as explicit state
  passing over an `Option` cache together with a count of fetches performed.
-/

namespace SeattleFoodTruck

/-- Python `math.radians`: convert degrees to radians. -/
noncomputable def radians (x : ℝ) : ℝ := x * Real.pi / 180

/-- Intermediate value `a` of `haversine_distance` (`__init__.py` line 41).
The source unpacks `lon1, lat1, lon2, lat2 = map(radians, [*lat_long1,
*lat_long2])`, so the FIRST component of each pair is bound to the longitude
variable and the SECOND to the latitude variable. -/
noncomputable def haversineAux (lat_long1 lat_long2 : ℝ × ℝ) : ℝ :=
  let lon1 := radians lat_long1.1
  let lat1 := radians lat_long1.2
  let lon2 := radians lat_long2.1
  let lat2 := radians lat_long2.2
  let long_dist := lon2 - lon1
  let lat_dist := lat2 - lat1
  Real.sin (lat_dist / 2) ^ 2 + Real.cos lat1 * Real.cos lat2 * Real.sin (long_dist / 2) ^ 2

/-- Source `haversine_distance` (`__init__.py` lines 32-45):
`c = 2 * asin(sqrt(a))`, `miles = c * 3959`. -/
noncomputable def haversine_distance (lat_long1 lat_long2 : ℝ × ℝ) : ℝ :=
  let c := 2 * Real.arcsin (Real.sqrt (haversineAux lat_long1 lat_long2))
  c * 3959

/-- Spec formula (section 4.1), for comparison with the source definition: a
Position is `(latitude, longitude)` with the FIRST component the latitude;
`a = sin²(Δlat/2) + cos(lat1)·cos(lat2)·sin²(Δlon/2)`, `c = 2·asin(√a)`,
`distance = R·c` with `R = 3959`. -/
noncomputable def spec_haversine_distance (a b : ℝ × ℝ) : ℝ :=
  let lat1 := radians a.1
  let lon1 := radians a.2
  let lat2 := radians b.1
  let lon2 := radians b.2
  let lat_dist := lat2 - lat1
  let long_dist := lon2 - lon1
  let h := Real.sin (lat_dist / 2) ^ 2 +
    Real.cos lat1 * Real.cos lat2 * Real.sin (long_dist / 2) ^ 2
  3959 * (2 * Real.arcsin (Real.sqrt h))

/-- One page of a paginated endpoint: the record list stored under the result
key and the `pagination.total_pages` field (the default `func` of `paginate`
reads exactly that field). -/
structure Page (R : Type) where
  records : List R
  total_pages : ℕ

/-- Source `paginate` (`__init__.py` lines 110-146).  Page 1 is fetched
first and its records appended; then `for i in range(2, func(first_page))`
requests further pages, i.e. the pages `2, 3, ..., total_pages - 1` —
`List.range' 2 (total_pages - 2)` — and appends each page's records.  The
endpoint is embedded as the pure function `pages`; the `as_completed`
completion order is embedded as submission order. -/
def paginate {R : Type} (pages : ℕ → Page R) : List R :=
  let first_page := pages 1
  first_page.records ++
    (List.range' 2 (first_page.total_pages - 2)).flatMap (fun i => (pages i).records)

/-- One record of the locations endpoint (the JSON mapping fields the claims
under verification use; the source copies the whole mapping verbatim onto the
object with `self.__dict__.update(mapping)`). -/
structure RawLocation where
  uid : ℕ
  name : String
  address : String
  latitude : ℚ
  longitude : ℚ
  deriving DecidableEq

/-- Source `Location` (`__init__.py` lines 166-250): an object carrying the
fields of the deserialized mapping. -/
structure Location where
  uid : ℕ
  name : String
  address : String
  latitude : ℚ
  longitude : ℚ
  deriving DecidableEq

/-- Source `Location.__init__`: copy the mapping's fields onto the object. -/
def Location.ofMapping (m : RawLocation) : Location :=
  ⟨m.uid, m.name, m.address, m.latitude, m.longitude⟩

/-- Source `Location.lat_long` property: `(self.latitude, self.longitude)`. -/
def Location.lat_long (l : Location) : ℚ × ℚ := (l.latitude, l.longitude)

/-- Error conditions of the location-query operations, one value per raise
site of the source, in the spec's naming. -/
inductive QueryError where
  | invalidQuery
  | addressNotFound
  | emptyRegistry
  deriving DecidableEq

/-- Comparison key of `sorted(zip(distances, self.locations), key=lambda _: _[0])`:
compare pairs by their first (distance) component. -/
def distLE (p q : ℚ × Location) : Prop := p.1 ≤ q.1

instance : DecidableRel distLE := fun p q => inferInstanceAs (Decidable (p.1 ≤ q.1))

instance : IsTotal (ℚ × Location) distLE := ⟨fun p q => le_total p.1 q.1⟩

instance : IsTrans (ℚ × Location) distLE := ⟨fun _ _ _ h1 h2 => le_trans h1 h2⟩

/-- Core of `Client.locations_closest_to` (`__init__.py` lines 312-320):
`distances = map(distance_from_reference, [l.lat_long for l in locations])`
zipped with the locations and stably sorted by the distance component.
`d` stands for the float evaluation of `haversine_distance`; the source
curries its second argument with the query position, so each location `l`
contributes `d l.lat_long q`. -/
def rankedLocations (d : ℚ × ℚ → ℚ × ℚ → ℚ) (locations : List Location)
    (lat_long : ℚ × ℚ) : List (ℚ × Location) :=
  let distances := locations.map (fun l => d l.lat_long lat_long)
  List.insertionSort distLE (distances.zip locations)

/-- Source `Client.locations_closest_to` (`__init__.py` lines 282-320).
If neither `address` nor `lat_long` is given it raises (InvalidQuery);
if an address is given, `lat_long_from_address` resolves it, raising when
the geocoder has no result (AddressNotFound); the remaining source branch
only checks that the supplied coordinates are floats, which every value of
the embedding's coordinate type satisfies, so it never raises here. -/
def locations_closest_to (geocode : String → Option (ℚ × ℚ))
    (d : ℚ × ℚ → ℚ × ℚ → ℚ) (locations : List Location)
    (address : Option String) (lat_long : Option (ℚ × ℚ)) :
    Except QueryError (List (ℚ × Location)) :=
  match address, lat_long with
  | none, none => Except.error QueryError.invalidQuery
  | some a, _ =>
    match geocode a with
    | none => Except.error QueryError.addressNotFound
    | some q => Except.ok (rankedLocations d locations q)
  | none, some q => Except.ok (rankedLocations d locations q)

/-- Source `Client.nearest_location_to` (`__init__.py` lines 256-280):
`(distance, location), *_ = self.locations_closest_to(...)` — unpacking the
head of the ranked list, which raises on an empty list (EmptyRegistry). -/
def nearest_location_to (geocode : String → Option (ℚ × ℚ))
    (d : ℚ × ℚ → ℚ × ℚ → ℚ) (locations : List Location)
    (address : Option String) (lat_long : Option (ℚ × ℚ)) :
    Except QueryError Location :=
  match locations_closest_to geocode d locations address lat_long with
  | Except.error e => Except.error e
  | Except.ok [] => Except.error QueryError.emptyRegistry
  | Except.ok (p :: _) => Except.ok p.2

/-- Memoization state of one client instance: the instance dictionary entry
the lazy descriptor writes on first access. -/
structure ClientState where
  locationsCache : Option (List Location)

/-- Source `Client.locations` under the lazy memoizing descriptor: on a cache
miss it runs `list(map(Location, paginate(locations endpoint)))`, stores the
value and reports one fetch; on a hit it returns the stored snapshot with no
fetch.  `fetchLocations` stands for the paginated fetch against the locations
endpoint; the third component counts the fetches this access performed. -/
def Client_locations (fetchLocations : Unit → List RawLocation) (c : ClientState) :
    List Location × ClientState × ℕ :=
  match c.locationsCache with
  | some v => (v, c, 0)
  | none =>
    let v := (fetchLocations ()).map Location.ofMapping
    (v, ⟨some v⟩, 1)

/-- Total number of fetches performed by `n` successive accesses to
`Client_locations`, threading the client state. -/
def locationsFetchCount (fetchLocations : Unit → List RawLocation) :
    ℕ → ClientState → ℕ
  | 0, _ => 0
  | n + 1, c =>
    let r := Client_locations fetchLocations c
    r.2.2 + locationsFetchCount fetchLocations n r.2.1

/-- Nested truck payload of one booking (the fields the claims use; the
source copies the whole mapping verbatim). -/
structure TruckMapping where
  name : String
  food_categories : List String
  deriving DecidableEq

/-- Source `Truck` (`__init__.py` lines 149-163). -/
structure Truck where
  name : String
  food_categories : List String
  deriving DecidableEq

/-- Source `Truck.__init__`: copy the mapping's fields onto the object. -/
def Truck.ofMapping (m : TruckMapping) : Truck := ⟨m.name, m.food_categories⟩

/-- One booking of an event: `booking['truck']`. -/
structure Booking where
  truck : TruckMapping
  deriving DecidableEq

/-- One record of the events endpoint: `start_time` and `bookings`. -/
structure EventRecord where
  start_time : String
  bookings : List Booking
  deriving DecidableEq

/-- Source `Location.trucks_on_day` (`__init__.py` lines 210-223), over the
fetched event list: for each event whose parsed start-time date equals the
requested date, append a `Truck` for every booking of the event.
`parseDate` stands for `dateutil`'s `date_parse(...).date()`, with calendar
dates embedded as `ℤ`. -/
def trucks_on_day (parseDate : String → ℤ) (events : List EventRecord)
    (date : ℤ) : List Truck :=
  events.flatMap (fun event =>
    if date = parseDate event.start_time then
      event.bookings.map (fun booking => Truck.ofMapping booking.truck)
    else [])

/-- Source `Location.trucks_n_days_from_now` (`__init__.py` lines 225-228):
`today + timedelta(days=n)`. -/
def trucks_n_days_from_now (parseDate : String → ℤ) (events : List EventRecord)
    (today : ℤ) (n : ℤ) : List Truck :=
  trucks_on_day parseDate events (today + n)

/-- Source `Location.trucks_today`. -/
def trucks_today (parseDate : String → ℤ) (events : List EventRecord)
    (today : ℤ) : List Truck :=
  trucks_on_day parseDate events today

/-- Source `Location.trucks_tomorrow`: `today + timedelta(days=1)`. -/
def trucks_tomorrow (parseDate : String → ℤ) (events : List EventRecord)
    (today : ℤ) : List Truck :=
  trucks_on_day parseDate events (today + 1)

/-- Source `Location.trucks_yesterday`: `today - timedelta(days=1)`. -/
def trucks_yesterday (parseDate : String → ℤ) (events : List EventRecord)
    (today : ℤ) : List Truck :=
  trucks_on_day parseDate events (today - 1)

/-- Concrete 3-page endpoint for the pagination claim: page `i` holds the
single record `10 * i`, and page 1 reports `total_pages = 3`. -/
def threePageEndpoint : ℕ → Page ℕ := fun i => ⟨[10 * i], 3⟩

/-- Concrete geocoder with no results, for closed evaluation theorems. -/
def emptyGeocode : String → Option (ℚ × ℚ) := fun _ => none

/-- Concrete constant distance function, for closed evaluation theorems. -/
def zeroDist : ℚ × ℚ → ℚ × ℚ → ℚ := fun _ _ => 0

/-- Zipping a mapped list with the original list pairs each element with its
image. -/
lemma zip_map_self {α β : Type} (f : α → β) (l : List α) :
    (l.map f).zip l = l.map (fun x => (f x, x)) := by
  induction l with
  | nil => rfl
  | cons a t ih => simp [ih]

/-- Stability of ordered insertion, matching-key case: inserting a pair whose
key is `k` prepends it to the key-`k` sublist, because every element the
insertion skips has a strictly smaller key. -/
lemma filter_orderedInsert_key_eq (k : ℚ) (x : ℚ × Location) (hx : x.1 = k)
    (l : List (ℚ × Location)) :
    (List.orderedInsert distLE x l).filter (fun p => decide (p.1 = k))
      = x :: l.filter (fun p => decide (p.1 = k)) := by
  induction l with
  | nil => simp [hx]
  | cons y ys ih =>
    by_cases h : distLE x y
    · rw [List.orderedInsert, if_pos h]
      simp [List.filter_cons, hx]
    · rw [List.orderedInsert, if_neg h]
      have hy : ¬(y.1 = k) := by
        intro hk
        exact h (le_of_eq (hx.trans hk.symm))
      simp [List.filter_cons, hy, ih]

/-- Stability of ordered insertion, other-key case: inserting a pair whose key
is not `k` leaves the key-`k` sublist unchanged. -/
lemma filter_orderedInsert_key_ne (k : ℚ) (x : ℚ × Location) (hx : ¬(x.1 = k))
    (l : List (ℚ × Location)) :
    (List.orderedInsert distLE x l).filter (fun p => decide (p.1 = k))
      = l.filter (fun p => decide (p.1 = k)) := by
  induction l with
  | nil => simp [hx]
  | cons y ys ih =>
    by_cases h : distLE x y
    · rw [List.orderedInsert, if_pos h]
      simp [List.filter_cons, hx]
    · rw [List.orderedInsert, if_neg h]
      simp [List.filter_cons, ih]

/-- Stability of the embedded sort: for every key `k`, the key-`k` pairs of
the sorted list are the key-`k` pairs of the input in their original order. -/
lemma filter_insertionSort_key (k : ℚ) (l : List (ℚ × Location)) :
    (List.insertionSort distLE l).filter (fun p => decide (p.1 = k))
      = l.filter (fun p => decide (p.1 = k)) := by
  induction l with
  | nil => rfl
  | cons x xs ih =>
    rw [List.insertionSort]
    by_cases hx : x.1 = k
    · rw [filter_orderedInsert_key_eq k x hx, ih, List.filter_cons]
      simp [hx]
    · rw [filter_orderedInsert_key_ne k x hx, ih, List.filter_cons]
      simp [hx]

/-- Bounds on the haversine intermediate value, for arbitrary real latitude
arguments `x`, `y` and longitude difference `δ`. -/
lemma haversine_core_bounds (x y δ : ℝ) :
    0 ≤ Real.sin ((y - x) / 2) ^ 2 + Real.cos x * Real.cos y * Real.sin (δ / 2) ^ 2 ∧
    Real.sin ((y - x) / 2) ^ 2 + Real.cos x * Real.cos y * Real.sin (δ / 2) ^ 2 ≤ 1 := by
  have h1 : Real.sin ((y - x) / 2) ^ 2 = 1 / 2 - Real.cos (y - x) / 2 := by
    rw [Real.sin_sq_eq_half_sub, show 2 * ((y - x) / 2) = y - x by ring]
  have h2 : Real.sin (δ / 2) ^ 2 = 1 / 2 - Real.cos δ / 2 := by
    rw [Real.sin_sq_eq_half_sub, show 2 * (δ / 2) = δ by ring]
  have h3 : Real.cos (y - x) = Real.cos y * Real.cos x + Real.sin y * Real.sin x :=
    Real.cos_sub y x
  have px := Real.sin_sq_add_cos_sq x
  have py := Real.sin_sq_add_cos_sq y
  have pd := Real.sin_sq_add_cos_sq δ
  rw [h1, h2, h3]
  constructor
  · nlinarith [sq_nonneg (Real.sin x - Real.sin y),
      sq_nonneg (Real.cos x - Real.cos y * Real.cos δ),
      sq_nonneg (Real.cos y * Real.sin δ)]
  · nlinarith [sq_nonneg (Real.sin x + Real.sin y),
      sq_nonneg (Real.cos x + Real.cos y * Real.cos δ),
      sq_nonneg (Real.cos y * Real.sin δ)]

/-- Claim C1: a paginated fetch whose page 1 reports `total_pages = N` returns
the concatenation of the records of all pages 1..N in page order.  The code
iterates `range(2, total_pages)`, which stops at page `total_pages - 1`: on
the 3-page endpoint (records `[10]`, `[20]`, `[30]`) it returns `[10, 20]`,
dropping page 3's records, so the fetched length is 2, not the claimed sum
1 + 1 + 1 = 3 of the per-page lengths. -/
theorem c1_paginate_drops_last_page :
    paginate threePageEndpoint = [10, 20] ∧
    (paginate threePageEndpoint).length = 2 ∧
    30 ∈ (threePageEndpoint 3).records ∧
    30 ∉ paginate threePageEndpoint ∧
    paginate threePageEndpoint ≠ [10, 20, 30] := by
  refine ⟨?_, ?_, ?_, ?_, ?_⟩ <;> decide

/-- Claim C9: the convenience wrappers are pure offsets of the process-clock
date `today` into the date-query primitive and carry no other logic:
`trucks_today` requests `today`, `trucks_tomorrow` requests `today + 1`,
`trucks_yesterday` requests `today - 1`, and `trucks_n_days_from_now n`
requests `today + n`. -/
theorem c9_wrappers_are_offsets (parseDate : String → ℤ) (events : List EventRecord)
    (today : ℤ) (n : ℤ) :
    trucks_today parseDate events today = trucks_on_day parseDate events today ∧
    trucks_tomorrow parseDate events today = trucks_on_day parseDate events (today + 1) ∧
    trucks_yesterday parseDate events today = trucks_on_day parseDate events (today - 1) ∧
    trucks_n_days_from_now parseDate events today n
      = trucks_on_day parseDate events (today + n) :=
  ⟨rfl, rfl, rfl, rfl⟩

/-- Claim C2: for positions given as `(latitude, longitude)` the code's
distance equals the spec's haversine value.  The code binds the FIRST
component of each pair to the longitude variable, so at the positions
`(60, 0)` and `(60, 180)` it returns `3959·π` while the claimed formula
(first component latitude) gives `3959·π/3`, and the two values differ. -/
theorem c2_haversine_swaps_coordinates :
    haversine_distance (60, 0) (60, 180) = 3959 * Real.pi ∧
    spec_haversine_distance (60, 0) (60, 180) = 3959 * (Real.pi / 3) ∧
    3959 * Real.pi ≠ 3959 * (Real.pi / 3) := by
  have e1 : haversineAux (60, 0) (60, 180) = 1 := by
    show Real.sin ((radians 180 - radians 0) / 2) ^ 2 +
      Real.cos (radians 0) * Real.cos (radians 180) *
        Real.sin ((radians 60 - radians 60) / 2) ^ 2 = 1
    rw [show (radians 180 - radians 0) / 2 = Real.pi / 2 by unfold radians; ring,
        show radians 0 = 0 by unfold radians; ring,
        show radians 180 = Real.pi by unfold radians; ring,
        show (radians 60 - radians 60) / 2 = 0 by simp,
        Real.sin_pi_div_two, Real.cos_zero, Real.cos_pi, Real.sin_zero]
    norm_num
  have hq : Real.sqrt (1 / 4) = 1 / 2 := by
    rw [show (1 / 4 : ℝ) = (1 / 2) ^ 2 by norm_num,
      Real.sqrt_sq (by norm_num : (0 : ℝ) ≤ 1 / 2)]
  have harc : Real.arcsin (1 / 2) = Real.pi / 6 := by
    rw [← Real.sin_pi_div_six]
    exact Real.arcsin_sin (by linarith [Real.pi_pos]) (by linarith [Real.pi_pos])
  refine ⟨?_, ?_, ?_⟩
  · show 2 * Real.arcsin (Real.sqrt (haversineAux (60, 0) (60, 180))) * 3959
      = 3959 * Real.pi
    rw [e1, Real.sqrt_one, Real.arcsin_one]
    ring
  · show 3959 * (2 * Real.arcsin (Real.sqrt
      (Real.sin ((radians 60 - radians 60) / 2) ^ 2 +
        Real.cos (radians 60) * Real.cos (radians 60) *
          Real.sin ((radians 180 - radians 0) / 2) ^ 2))) = 3959 * (Real.pi / 3)
    rw [show (radians 60 - radians 60) / 2 = 0 by simp,
        show radians 60 = Real.pi / 3 by unfold radians; ring,
        show (radians 180 - radians 0) / 2 = Real.pi / 2 by unfold radians; ring,
        Real.sin_zero, Real.cos_pi_div_three, Real.sin_pi_div_two]
    rw [show (0 : ℝ) ^ 2 + 1 / 2 * (1 / 2) * 1 ^ 2 = 1 / 4 by norm_num, hq, harc]
    ring
  · intro h
    have := Real.pi_pos
    linarith

/-- Claim C8: the code's distance is symmetric in its two arguments, and the
distance from a position to itself is exactly zero. -/
theorem c8_distance_symm_zero (a b : ℝ × ℝ) :
    haversine_distance a b = haversine_distance b a ∧
    haversine_distance a a = 0 := by
  constructor
  · have haux : haversineAux a b = haversineAux b a := by
      simp only [haversineAux]
      rw [show (radians b.2 - radians a.2) / 2 = -((radians a.2 - radians b.2) / 2) by ring,
          show (radians b.1 - radians a.1) / 2 = -((radians a.1 - radians b.1) / 2) by ring,
          Real.sin_neg, Real.sin_neg]
      ring
    simp only [haversine_distance, haux]
  · have haux : haversineAux a a = 0 := by
      simp [haversineAux]
    simp [haversine_distance, haux, Real.sqrt_zero, Real.arcsin_zero]

/-- Claim C10: the haversine computation is total on all real coordinate
pairs: the intermediate value always lies in `[0, 1]` (so the square root and
arcsine steps stay on their principal domain and no domain error can arise),
and the returned distance always lies in `[0, 3959·π]` miles. -/
theorem c10_haversine_total_bounds (a b : ℝ × ℝ) :
    0 ≤ haversineAux a b ∧ haversineAux a b ≤ 1 ∧
    0 ≤ haversine_distance a b ∧ haversine_distance a b ≤ 3959 * Real.pi := by
  obtain ⟨h0, h1⟩ := haversine_core_bounds (radians a.2) (radians b.2)
    (radians b.1 - radians a.1)
  have e : haversineAux a b
      = Real.sin ((radians b.2 - radians a.2) / 2) ^ 2
        + Real.cos (radians a.2) * Real.cos (radians b.2)
          * Real.sin ((radians b.1 - radians a.1) / 2) ^ 2 := rfl
  have harc0 : 0 ≤ Real.arcsin (Real.sqrt (haversineAux a b)) :=
    Real.arcsin_nonneg.mpr (Real.sqrt_nonneg _)
  have harc1 : Real.arcsin (Real.sqrt (haversineAux a b)) ≤ Real.pi / 2 :=
    Real.arcsin_le_pi_div_two _
  refine ⟨?_, ?_, ?_, ?_⟩
  · rw [e]; exact h0
  · rw [e]; exact h1
  · show 0 ≤ 2 * Real.arcsin (Real.sqrt (haversineAux a b)) * 3959
    linarith
  · show 2 * Real.arcsin (Real.sqrt (haversineAux a b)) * 3959 ≤ 3959 * Real.pi
    linarith

/-- Claim C3: for every query position and registry snapshot the ranking
operation returns one (distance, location) pair per registry entry (a
permutation of the zipped distances), sorted in non-decreasing distance
order, with ties left in original registry order (for every key, the pairs
carrying that key appear exactly as in the unsorted zipped list), and the
head's distance is below every other entry's distance. -/
theorem c3_ranked_locations (geocode : String → Option (ℚ × ℚ))
    (d : ℚ × ℚ → ℚ × ℚ → ℚ) (locations : List Location) (q : ℚ × ℚ) :
    locations_closest_to geocode d locations none (some q)
      = Except.ok (rankedLocations d locations q) ∧
    (rankedLocations d locations q).length = locations.length ∧
    (rankedLocations d locations q).Perm
      (locations.map (fun l => (d l.lat_long q, l))) ∧
    List.Pairwise distLE (rankedLocations d locations q) ∧
    (∀ k : ℚ, (rankedLocations d locations q).filter (fun p => decide (p.1 = k))
      = ((locations.map (fun l => d l.lat_long q)).zip locations).filter
          (fun p => decide (p.1 = k))) ∧
    (∀ hd, (rankedLocations d locations q).head? = some hd →
      ∀ p ∈ rankedLocations d locations q, hd.1 ≤ p.1) := by
  have hperm : (rankedLocations d locations q).Perm
      ((locations.map (fun l => d l.lat_long q)).zip locations) :=
    List.perm_insertionSort distLE _
  have hsorted : List.Pairwise distLE (rankedLocations d locations q) :=
    List.sorted_insertionSort distLE _
  refine ⟨rfl, ?_, ?_, hsorted, ?_, ?_⟩
  · rw [hperm.length_eq, List.length_zip, List.length_map, Nat.min_self]
  · rw [← zip_map_self]; exact hperm
  · intro k; exact filter_insertionSort_key k _
  · intro hd hhd p hp
    cases hr : rankedLocations d locations q with
    | nil => rw [hr] at hhd; cases hhd
    | cons x t =>
      rw [hr] at hhd hp hsorted
      have hx : x = hd := by simpa using hhd
      rcases List.pairwise_cons.mp hsorted with ⟨hall, _⟩
      rcases List.mem_cons.mp hp with h | h
      · rw [← hx, h]
      · rw [← hx]; exact hall p h

/-- Claim C4: on one client instance the first access to the locations
registry performs exactly one fetch and deserializes each fetched record into
a `Location`; every further access returns the identical cached snapshot with
the state unchanged and performs no fetch, so any `k + 1` consecutive
accesses perform exactly one fetch in total. -/
theorem c4_locations_memoized (fetchLocations : Unit → List RawLocation) (k : ℕ) :
    (Client_locations fetchLocations ⟨none⟩).1
      = (fetchLocations ()).map Location.ofMapping ∧
    (Client_locations fetchLocations ⟨none⟩).2.2 = 1 ∧
    Client_locations fetchLocations (Client_locations fetchLocations ⟨none⟩).2.1
      = ((Client_locations fetchLocations ⟨none⟩).1,
          (Client_locations fetchLocations ⟨none⟩).2.1, 0) ∧
    locationsFetchCount fetchLocations (k + 1) ⟨none⟩ = 1 := by
  have hcached : ∀ n v, locationsFetchCount fetchLocations n ⟨some v⟩ = 0 := by
    intro n
    induction n with
    | zero => intro v; rfl
    | succ m ih =>
      intro v
      simpa [locationsFetchCount, Client_locations] using ih v
  refine ⟨rfl, rfl, rfl, ?_⟩
  simp [locationsFetchCount, Client_locations, hcached]

/-- Claim C5: over the fetched event list, `trucks_on_day` returns exactly
the flattening, in event order, of the bookings of those events whose parsed
start-timestamp date equals the requested date; when no event's parsed date
matches it returns the empty list. -/
theorem c5_trucks_on_day_filters (parseDate : String → ℤ) (events : List EventRecord)
    (date : ℤ) :
    trucks_on_day parseDate events date
      = (events.filter (fun e => decide (date = parseDate e.start_time))).flatMap
          (fun e => e.bookings.map (fun b => Truck.ofMapping b.truck)) ∧
    ((∀ e ∈ events, parseDate e.start_time ≠ date) →
      trucks_on_day parseDate events date = []) := by
  have hmain : trucks_on_day parseDate events date
      = (events.filter (fun e => decide (date = parseDate e.start_time))).flatMap
          (fun e => e.bookings.map (fun b => Truck.ofMapping b.truck)) := by
    induction events with
    | nil => rfl
    | cons e es ih =>
      simp only [trucks_on_day] at ih
      simp only [trucks_on_day, List.flatMap_cons, List.filter_cons]
      by_cases h : date = parseDate e.start_time
      · rw [if_pos h, if_pos (decide_eq_true h), List.flatMap_cons, ih]
      · rw [if_neg h, if_neg (by simpa using h), List.nil_append, ih]
  refine ⟨hmain, ?_⟩
  intro h
  have hnil : events.filter (fun e => decide (date = parseDate e.start_time)) = [] := by
    rw [List.filter_eq_nil_iff]
    intro e he
    simpa using fun hd => (h e he) hd.symm
  rw [hmain, hnil]
  rfl

/-- Claim C6: when the registry snapshot has zero entries, the
nearest-location query fails with the EmptyRegistry condition — the head
unpacking of the ranked list fails — rather than returning a location; this
holds both for a position query and for an address query whose geocoding
succeeds. -/
theorem c6_empty_registry (geocode : String → Option (ℚ × ℚ))
    (d : ℚ × ℚ → ℚ × ℚ → ℚ) (q : ℚ × ℚ) (s : String) :
    nearest_location_to geocode d [] none (some q)
      = Except.error QueryError.emptyRegistry ∧
    (∀ pos, geocode s = some pos →
      nearest_location_to geocode d [] (some s) none
        = Except.error QueryError.emptyRegistry) := by
  constructor
  · rfl
  · intro pos h
    simp [nearest_location_to, locations_closest_to, h, rankedLocations,
      List.insertionSort]

/-- Claim C7, counterexample: the claim requires InvalidQuery whenever a
supplied position violates the coordinate-range invariant, but the code never
range-checks positions: at the out-of-range position `(200, 0)` (latitude
200 > 90) the query returns a result instead of failing. -/
theorem c7_position_range_not_checked :
    ((90 : ℚ) < 200) ∧
    locations_closest_to emptyGeocode zeroDist [] none (some (200, 0))
      = Except.ok [] ∧
    locations_closest_to emptyGeocode zeroDist [] none (some (200, 0))
      ≠ Except.error QueryError.invalidQuery := by
  refine ⟨by norm_num, rfl, ?_⟩
  intro h
  simp [locations_closest_to, rankedLocations, List.insertionSort] at h

/-- Claim C7, amended: a location-query operation fails with the InvalidQuery
condition exactly when neither an address nor a position is supplied; a
supplied position is never coordinate-range-checked (any rational coordinates
are accepted). -/
theorem c7_invalid_query_iff (geocode : String → Option (ℚ × ℚ))
    (d : ℚ × ℚ → ℚ × ℚ → ℚ) (locations : List Location)
    (address : Option String) (lat_long : Option (ℚ × ℚ)) :
    (locations_closest_to geocode d locations address lat_long
        = Except.error QueryError.invalidQuery)
      ↔ (address = none ∧ lat_long = none) := by
  cases address with
  | none =>
    cases lat_long with
    | none => simp [locations_closest_to]
    | some q => simp [locations_closest_to]
  | some a =>
    cases h : geocode a with
    | none => simp [locations_closest_to, h]
    | some q => simp [locations_closest_to, h]

end SeattleFoodTruck
